import Mathlib

/-!
Verification development for `logger` (`src/logger.go`)

The package keeps four package-level `*log.Logger` variables (`Debug`, `Info`,
`Warning`, `Error`) and one function `Init` that opens a log file and rebinds
the loggers selected by a bit mask.

Embedding.
* Go `int` values (`logFlag`, `levelFlag`) are `Int`; the only arithmetic is the
  bitwise AND `levelFlag&LX`, which is `Int.land` (two's complement, so it agrees
  with Go on every machine integer, negative ones included).
* The four package variables are the fields of the record `Loggers`; `Init`
  is a function from the record before the call to an `Outcome`.
* `os.OpenFile` is a field of the record `OS`: the file system is an input of
  `Init`, and every theorem quantifies over it.
* `log.Fatalln` ends the process; the outcome `fatal` carries the loggers as they
  are at that point.
* Package `log` keeps a logger's flags in a 32-bit field (Go 1.21 and later), so `log.New`
  stores `int32(flag)`; `int32` is the conversion of a Go `int` to that width.
* What an open file refers to (a regular file, or the stream behind standard output or standard
  error, as for the path `/dev/stdout`) and whether a write fails belong to the world outside
  the process, the record `Sinks`; a fan-out stops at the first failed write.
-/

namespace logger

/-! ## The writers of packages `os`, `io` and `io/ioutil` that `Init` uses -/

/-- An open file (Go `*os.File`): the path it was opened with and its descriptor. -/
structure File where
  name : String
  fd : Nat
deriving DecidableEq, Repr

/-- A writer that is not a fan-out: `ioutil.Discard`, `os.Stdout`, `os.Stderr`, or an open file. -/
inductive Dest where
  | Discard : Dest
  | Stdout : Dest
  | Stderr : Dest
  | file (f : File) : Dest
deriving DecidableEq, Repr

/-- An `io.Writer` value: one plain writer, or the fan-out built by `io.MultiWriter`. -/
inductive Writer where
  | single (d : Dest) : Writer
  | multiWriter (writers : List Dest) : Writer
deriving DecidableEq, Repr

/-- The plain writers a write to `w` is forwarded to, in order. -/
def Writer.dests : Writer → List Dest
  | .single d => [d]
  | .multiWriter ws => ws

/-- Go `io.MultiWriter(writers...)`: the fan-out over the given writers, an argument that is
itself a fan-out contributing its members. -/
def io.MultiWriter (writers : List Writer) : Writer :=
  .multiWriter (writers.flatMap Writer.dests)

/-! ## Package `log` -/

/-- A `log.Logger`: the fields `prefix`, `flag` and `out` set by `log.New`; `flag` is the value
`Flags()` returns. -/
structure Logger where
  out : Writer
  pfx : String
  flag : Int
deriving DecidableEq, Repr

/-- Go conversion `int32(x)` of an `int`: the low 32 bits, read as a signed number. -/
def int32 (x : Int) : Int := Int.bmod x 4294967296

/-- Go `log.New(out, prefix, flag)`: the logger records the writer and the prefix as given and
keeps the flags in a 32-bit field (`l.flag.Store(int32(flag))`). -/
def log.New (out : Writer) (pfx : String) (flag : Int) : Logger :=
  { out := out, pfx := pfx, flag := int32 flag }

/-- Go `log.Ldate`. -/
def log.Ldate : Int := 1
/-- Go `log.Ltime`. -/
def log.Ltime : Int := 2
/-- Go `log.LstdFlags = Ldate | Ltime`. -/
def log.LstdFlags : Int := Int.lor log.Ldate log.Ltime

/-! ## `src/logger.go` -/

/-- The `iota` constant block: `1 << iota` for `iota = 0`. -/
def LDebug : Int := ((1 <<< 0 : Nat) : Int)
/-- The `iota` constant block: `1 << iota` for `iota = 1`. -/
def LInfo : Int := ((1 <<< 1 : Nat) : Int)
/-- The `iota` constant block: `1 << iota` for `iota = 2`. -/
def LWarning : Int := ((1 <<< 2 : Nat) : Int)
/-- The `iota` constant block: `1 << iota` for `iota = 3`. -/
def LError : Int := ((1 <<< 3 : Nat) : Int)

/-- The four package-level logger variables. -/
structure Loggers where
  Debug : Logger
  Info : Logger
  Warning : Logger
  Error : Logger
deriving DecidableEq, Repr

/-- The `var (...)` block: the value of the four variables at program start. -/
def initial : Loggers :=
  { Debug := log.New (.single .Discard) "Discard: " log.LstdFlags
    Info := log.New (.single .Discard) "Discard: " log.LstdFlags
    Warning := log.New (.single .Discard) "Discard: " log.LstdFlags
    Error := log.New (.single .Discard) "Discard: " log.LstdFlags }

/-- Go `os.O_WRONLY`. -/
def os.O_WRONLY : Nat := 0x1
/-- Go `os.O_CREATE` (Linux value). -/
def os.O_CREATE : Nat := 0x40
/-- Go `os.O_APPEND` (Linux value). -/
def os.O_APPEND : Nat := 0x400

/-- The operating system as `Init` sees it: `os.OpenFile name flag perm` gives an open file or
an error text. -/
structure OS where
  OpenFile : String → Nat → Nat → Except String File

/-- How a call of `Init` ends: `fatal` when `log.Fatalln` stopped the process (with the message
and the loggers as they are at that point), `done` when `Init` returned. -/
inductive Outcome where
  | fatal (msg : String) (st : Loggers) : Outcome
  | done (st : Loggers) : Outcome
deriving DecidableEq, Repr

/-- Go `Init(fileName, multi, logFlag, levelFlag)`, run on the loggers `st` under the
operating system `sys`. -/
def Init (sys : OS) (st : Loggers) (fileName : String) (multi : Bool) (logFlag : Int)
    (levelFlag : Int) : Outcome :=
  match sys.OpenFile fileName (os.O_CREATE ||| os.O_WRONLY ||| os.O_APPEND) 0o666 with
  | .error err => .fatal ("Failed to open logfile: " ++ err) st
  | .ok file =>
    let stdHandle : Writer :=
      if multi then io.MultiWriter [.single (.file file), .single .Stdout]
      else .single (.file file)
    let errHandle : Writer :=
      if multi then io.MultiWriter [.single (.file file), .single .Stderr]
      else .single (.file file)
    let st := if Int.land levelFlag LDebug ≠ 0 then
      { st with Debug := log.New stdHandle "Debug: " logFlag } else st
    let st := if Int.land levelFlag LInfo ≠ 0 then
      { st with Info := log.New stdHandle "Info: " logFlag } else st
    let st := if Int.land levelFlag LWarning ≠ 0 then
      { st with Warning := log.New stdHandle "Warning: " logFlag } else st
    let st := if Int.land levelFlag LError ≠ 0 then
      { st with Error := log.New errHandle "Error: " logFlag } else st
    .done st

/-! ## Writing to a logger

`Logger.Output`, `io.MultiWriter` and the `Write` methods belong to Go's standard library and to
the operating system, not to this package. The bytes of a line are computed by a function
`render` that is a parameter (it stands for the header formatting of package `log`). A write
hands those bytes to the plain writers behind `out`, in order, and stops at the first one that
fails. A write through an open file reaches whatever the file refers to. -/

/-- What an open descriptor refers to: whatever standard output is (a terminal, a pipe, a file
it was redirected to), whatever standard error is, or another file, identified by its inode
number. Standard output and standard error are taken to be two different streams. -/
inductive Node where
  | stdout : Node
  | stderr : Node
  | regular (ino : Nat) : Node
deriving DecidableEq, Repr

/-- The world outside the process: the bytes written so far to each regular file (by inode), to
standard output and to standard error; what each open file refers to; and which writes fail:
`short n p = none` when a write of `p` to `n` succeeds, `short n p = some q` when it fails
after the part `q` was written. -/
structure Sinks where
  files : Nat → String
  stdout : String
  stderr : String
  node : File → Node
  short : Node → String → Option String

/-- The bytes `p` arrive at the node `n`. -/
def Node.append (n : Node) (p : String) (o : Sinks) : Sinks :=
  match n with
  | .stdout => { o with stdout := o.stdout ++ p }
  | .stderr => { o with stderr := o.stderr ++ p }
  | .regular i => { o with files := fun j => if j = i then o.files j ++ p else o.files j }

/-- One `write` on a node: the new world and whether the write succeeded. -/
def Node.Write (n : Node) (p : String) (o : Sinks) : Sinks × Bool :=
  match o.short n p with
  | none => (n.append p o, true)
  | some q => (n.append q o, false)

/-- One `Write` call on a plain writer: the new world and whether the write succeeded.
`ioutil.Discard` drops the bytes and succeeds. -/
def Dest.Write (d : Dest) (p : String) (o : Sinks) : Sinks × Bool :=
  match d with
  | .Discard => (o, true)
  | .Stdout => Node.Write .stdout p o
  | .Stderr => Node.Write .stderr p o
  | .file f => Node.Write (o.node f) p o

/-- The loop of `(*multiWriter).Write`: each member in order, ending at the first failure. -/
def writeAll : List Dest → String → Sinks → Sinks × Bool
  | [], _, o => (o, true)
  | d :: ds, p, o =>
    match d.Write p o with
    | (o1, true) => writeAll ds p o1
    | (o1, false) => (o1, false)

/-- One `Write` call on an `io.Writer`. -/
def Writer.Write (w : Writer) (p : String) (o : Sinks) : Sinks × Bool :=
  match w with
  | .single d => d.Write p o
  | .multiWriter ws => writeAll ws p o

/-- Go `(*log.Logger).Output` as the callers `Print`, `Printf`, `Println` use it: one line,
rendered from the logger's settings and the message, written to `out`; a write error is
dropped. -/
def Logger.Output (render : Logger → String → String) (l : Logger) (s : String) (o : Sinks) :
    Sinks :=
  (l.out.Write (render l s) o).1

/-! ## Vocabulary of the statements -/

/-- The four streams. -/
inductive Level where
  | Debug : Level
  | Info : Level
  | Warning : Level
  | Error : Level
deriving DecidableEq, Repr

/-- The package variable of a stream. -/
def Level.get : Level → Loggers → Logger
  | .Debug, st => st.Debug
  | .Info, st => st.Info
  | .Warning, st => st.Warning
  | .Error, st => st.Error

/-- The mask constant of a stream. -/
def Level.mask : Level → Int
  | .Debug => LDebug
  | .Info => LInfo
  | .Warning => LWarning
  | .Error => LError

/-- The name of a stream. -/
def Level.name : Level → String
  | .Debug => "Debug"
  | .Info => "Info"
  | .Warning => "Warning"
  | .Error => "Error"

/-- The console writer of a stream: standard error for `Error`, standard output otherwise. -/
def Level.console : Level → Dest
  | .Error => .Stderr
  | _ => .Stdout

/-- The node a write to a plain writer arrives at in the world `o`; none for `ioutil.Discard`. -/
def Dest.node (d : Dest) (o : Sinks) : Option Node :=
  match d with
  | .Discard => none
  | .Stdout => some .stdout
  | .Stderr => some .stderr
  | .file f => some (o.node f)

/-- The call `sys.OpenFile` made by `Init fileName ..` succeeds with `file`. -/
def Opens (sys : OS) (fileName : String) (file : File) : Prop :=
  sys.OpenFile fileName (os.O_CREATE ||| os.O_WRONLY ||| os.O_APPEND) 0o666 = .ok file

/-- The stream is discarding: its writer is `ioutil.Discard` and nothing else. -/
def Discarding (l : Logger) : Prop := l.out = .single .Discard

instance (l : Logger) : Decidable (Discarding l) := by
  unfold Discarding; infer_instance

/-- The stream writes to the open file `file`. -/
def ActiveOn (file : File) (l : Logger) : Prop := Dest.file file ∈ l.out.dests

instance (file : File) (l : Logger) : Decidable (ActiveOn file l) := by
  unfold ActiveOn; infer_instance

/-- The bit position of a stream's mask constant. -/
def Level.bit : Level → Nat
  | .Debug => 0
  | .Info => 1
  | .Warning => 2
  | .Error => 3

/-- The writer a call `Init _ multi ..` that opened `file` gives to the stream `L` when it
selects it: `stdHandle`, or `errHandle` for `Error`. -/
def boundWriter (multi : Bool) (file : File) (L : Level) : Writer :=
  if multi then .multiWriter [.file file, L.console] else .single (.file file)

/-- An operating system on which every open succeeds, with descriptor 3. -/
def sysOk : OS := { OpenFile := fun n _ _ => .ok { name := n, fd := 3 } }

/-- An operating system on which every open fails. -/
def sysFail : OS := { OpenFile := fun _ _ _ => .error "permission denied" }

/-- The arguments of one `Init` call together with the operating system it runs under. -/
structure Call where
  sys : OS
  fileName : String
  multi : Bool
  logFlag : Int
  levelFlag : Int

/-- A first call: `Init("a.log", false, LstdFlags, LDebug)` where opens succeed. -/
def callA : Call :=
  { sys := sysOk, fileName := "a.log", multi := false, logFlag := 3, levelFlag := 1 }

/-- A second call: `Init("b.log", true, 0, LDebug)` where opens succeed. -/
def callB : Call :=
  { sys := sysOk, fileName := "b.log", multi := true, logFlag := 0, levelFlag := 1 }

/-- A call selecting Info and Error only: `Init("c.log", true, 0, LInfo|LError)`. -/
def callC : Call :=
  { sys := sysOk, fileName := "c.log", multi := true, logFlag := 0, levelFlag := 10 }

/-- The loggers after `callA` from the initial ones: Debug writes to `a.log` with flags 3. -/
def afterA : Loggers :=
  { initial with Debug := log.New (.single (.file { name := "a.log", fd := 3 })) "Debug: " 3 }

/-- The loggers after `callA` then `callB`: Debug writes to `b.log` and standard output with
flags 0. -/
def afterAB : Loggers :=
  { initial with
    Debug := log.New (.multiWriter [.file { name := "b.log", fd := 3 }, .Stdout]) "Debug: " 0 }

/-- The loggers after `callA` then `callC`: Debug as after `callA`, Info and Error on `c.log`
and their consoles. -/
def afterAC : Loggers :=
  { Debug := log.New (.single (.file { name := "a.log", fd := 3 })) "Debug: " 3
    Info := log.New (.multiWriter [.file { name := "c.log", fd := 3 }, .Stdout]) "Info: " 0
    Warning := initial.Warning
    Error := log.New (.multiWriter [.file { name := "c.log", fd := 3 }, .Stderr]) "Error: " 0 }

/-- A call with flags beyond 32 bits' signed range: `Init("f.log", false, 2147483648,
LDebug|LError)`. -/
def callBig : Call :=
  { sys := sysOk, fileName := "f.log", multi := false, logFlag := 2147483648, levelFlag := 9 }

/-- The loggers after `callBig` from the initial ones: the flags read back as `-2147483648`. -/
def afterBig : Loggers :=
  { initial with
    Debug :=
      { out := .single (.file { name := "f.log", fd := 3 }), pfx := "Debug: ",
        flag := -2147483648 }
    Error :=
      { out := .single (.file { name := "f.log", fd := 3 }), pfx := "Error: ",
        flag := -2147483648 } }

/-- The loggers after `Init("app.log", false, 4294967299, LDebug)` from the initial ones: the
flags read back as 3. -/
def afterWide : Loggers :=
  { initial with
    Debug := { out := .single (.file { name := "app.log", fd := 3 }), pfx := "Debug: ", flag := 3 } }

/-- The loggers an outcome carries. -/
def Outcome.state : Outcome → Loggers
  | .fatal _ st => st
  | .done st => st

/-- A program that makes the given `Init` calls in order, starting from the loggers `st`; the
first fatal call ends it. -/
def runCalls : Loggers → List Call → Outcome
  | st, [] => .done st
  | st, c :: cs =>
    match Init c.sys st c.fileName c.multi c.logFlag c.levelFlag with
    | .fatal msg st1 => .fatal msg st1
    | .done st1 => runCalls st1 cs

end logger

namespace logger

/-! ## Bit arithmetic of the level mask -/

/-- Masking with `m` first does not change a later test against a mask `k` contained in `m`. -/
theorem land_land_of_subset (x : Int) (m k : Nat) (hk : k &&& m = k) :
    Int.land (Int.land x (m : Int)) (k : Int) = Int.land x (k : Int) := by
  have hbit : ∀ i, (k.testBit i && m.testBit i) = k.testBit i := by
    intro i
    rw [← Nat.testBit_land, hk]
  cases x with
  | ofNat n =>
    show ((n &&& m &&& k : Nat) : Int) = ((n &&& k : Nat) : Int)
    congr 1
    rw [Nat.land_assoc, Nat.land_comm m k, hk]
  | negSucc n =>
    show ((Nat.ldiff m n &&& k : Nat) : Int) = ((Nat.ldiff k n : Nat) : Int)
    congr 1
    apply Nat.eq_of_testBit_eq
    intro i
    have h := hbit i
    rw [Nat.testBit_land, Nat.testBit_ldiff, Nat.testBit_ldiff]
    revert h
    cases k.testBit i <;> cases m.testBit i <;> cases n.testBit i <;> simp

/-- Testing against the mask `2 ^ k` reads bit `k` of the two's complement representation. -/
theorem land_two_pow_ne_zero (x : Int) (k : Nat) :
    Int.land x ((2 ^ k : Nat) : Int) ≠ 0 ↔ Int.testBit x k = true := by
  cases x with
  | ofNat n =>
    show ((n &&& 2 ^ k : Nat) : Int) ≠ 0 ↔ n.testBit k = true
    rw [Nat.and_two_pow]
    cases n.testBit k <;> simp
  | negSucc n =>
    show ((Nat.ldiff (2 ^ k) n : Nat) : Int) ≠ 0 ↔ (!n.testBit k) = true
    have h : Nat.ldiff (2 ^ k) n = if n.testBit k then 0 else 2 ^ k := by
      apply Nat.eq_of_testBit_eq
      intro i
      rw [Nat.testBit_ldiff, Nat.testBit_two_pow]
      by_cases hik : k = i
      · subst hik
        cases n.testBit k <;> simp
      · cases n.testBit k <;> simp [hik, Nat.testBit_two_pow]
    rw [h]
    cases n.testBit k <;> simp

/-! ## What one call of `Init` does -/

theorem mask_eq_two_pow (L : Level) : L.mask = ((2 ^ L.bit : Nat) : Int) := by
  cases L <;> rfl

theorem name_colon (L : Level) :
    L.name ++ ": " =
      match L with
      | .Debug => "Debug: "
      | .Info => "Info: "
      | .Warning => "Warning: "
      | .Error => "Error: " := by
  cases L <;> rfl

/-- A call whose open fails ends fatally and leaves the loggers alone. -/
theorem Init_of_error {sys : OS} {fileName err : String}
    (h : sys.OpenFile fileName (os.O_CREATE ||| os.O_WRONLY ||| os.O_APPEND) 0o666 = .error err)
    (st : Loggers) (multi : Bool) (logFlag levelFlag : Int) :
    Init sys st fileName multi logFlag levelFlag = .fatal ("Failed to open logfile: " ++ err) st := by
  unfold Init
  rw [h]

/-- A call whose open succeeds returns, and each stream is rebound when its mask bit is set and
kept otherwise. -/
theorem Init_of_opens {sys : OS} {fileName : String} {file : File} (h : Opens sys fileName file)
    (st : Loggers) (multi : Bool) (logFlag levelFlag : Int) :
    ∃ st1, Init sys st fileName multi logFlag levelFlag = .done st1 ∧
      ∀ L : Level, L.get st1 =
        if Int.land levelFlag L.mask ≠ 0 then
          log.New (boundWriter multi file L) (L.name ++ ": ") logFlag
        else L.get st := by
  unfold Opens at h
  unfold Init
  rw [h]
  refine ⟨_, rfl, ?_⟩
  intro L
  by_cases h1 : Int.land levelFlag LDebug = 0 <;> by_cases h2 : Int.land levelFlag LInfo = 0 <;>
    by_cases h3 : Int.land levelFlag LWarning = 0 <;>
    by_cases h4 : Int.land levelFlag LError = 0 <;>
    cases L <;> cases multi <;>
    simp [h1, h2, h3, h4, Level.get, Level.mask, name_colon, boundWriter, Level.console,
      io.MultiWriter, Writer.dests]

theorem file_mem_boundWriter (multi : Bool) (file : File) (L : Level) :
    Dest.file file ∈ (boundWriter multi file L).dests := by
  cases multi <;> simp [boundWriter, Writer.dests]

/-- The 32-bit conversion keeps a number that fits. -/
theorem int32_of_fits (x : Int) (hlo : -2147483648 ≤ x) (hhi : x < 2147483648) : int32 x = x := by
  unfold int32 Int.bmod
  simp only [Nat.cast_ofNat]
  split <;> omega

/-- C1 (level gating). When `Init` is called on the initial loggers and the open succeeds with
`file`, the call returns, and each of the four streams writes to `file` exactly when its mask
constant has a non-zero AND with `levelFlag` (which is bit 0, 1, 2, 3 of `levelFlag` for Debug,
Info, Warning, Error); a stream whose bit is clear is still discarding. With
`levelFlag = LInfo|LError`, Info and Error write to `file` and Debug and Warning discard. -/
theorem Init_level_gating (sys : OS) (fileName : String) (multi : Bool) (logFlag levelFlag : Int)
    (file : File) (hopen : Opens sys fileName file) :
    ∃ st, Init sys initial fileName multi logFlag levelFlag = .done st ∧
      (∀ L : Level,
        (ActiveOn file (L.get st) ↔ Int.land levelFlag L.mask ≠ 0) ∧
        (Int.land levelFlag L.mask = 0 → Discarding (L.get st)) ∧
        (Int.land levelFlag L.mask ≠ 0 ↔ Int.testBit levelFlag L.bit = true)) ∧
      (levelFlag = Int.lor LInfo LError →
        ActiveOn file st.Info ∧ ActiveOn file st.Error ∧
        Discarding st.Debug ∧ Discarding st.Warning) := by
  obtain ⟨st, hst, hget⟩ := Init_of_opens hopen initial multi logFlag levelFlag
  have key : ∀ L : Level,
      (ActiveOn file (L.get st) ↔ Int.land levelFlag L.mask ≠ 0) ∧
      (Int.land levelFlag L.mask = 0 → Discarding (L.get st)) := by
    intro L
    by_cases hL : Int.land levelFlag L.mask = 0
    · have hd : L.get st = L.get initial := by rw [hget L]; simp [hL]
      have hinit : (L.get initial).out = .single .Discard := by cases L <;> rfl
      refine ⟨?_, fun _ => ?_⟩
      · unfold ActiveOn
        rw [hd, hinit]
        simp [Writer.dests, hL]
      · unfold Discarding
        rw [hd, hinit]
    · have hd : L.get st = log.New (boundWriter multi file L) (L.name ++ ": ") logFlag := by
        rw [hget L]; simp [hL]
      refine ⟨?_, fun h => absurd h hL⟩
      unfold ActiveOn
      rw [hd]
      simp only [log.New, ne_eq, hL, not_false_eq_true, iff_true]
      exact file_mem_boundWriter multi file L
  refine ⟨st, hst, fun L => ⟨(key L).1, (key L).2, ?_⟩, ?_⟩
  · rw [mask_eq_two_pow]
    exact land_two_pow_ne_zero levelFlag L.bit
  · intro hlf
    subst hlf
    refine ⟨((key Level.Info).1).2 (by decide), ((key Level.Error).1).2 (by decide),
      (key Level.Debug).2 (by decide), (key Level.Warning).2 (by decide)⟩

/-- Witness of C1: on a system where opens succeed, with mirroring on and mask `2|8`. -/
theorem Init_level_gating_witness :
    Opens sysOk "app.log" { name := "app.log", fd := 3 } ∧
    ∃ st, Init sysOk initial "app.log" true 3 10 = .done st ∧
      (∀ L : Level,
        (ActiveOn { name := "app.log", fd := 3 } (L.get st) ↔ Int.land 10 L.mask ≠ 0) ∧
        (Int.land 10 L.mask = 0 → Discarding (L.get st)) ∧
        (Int.land 10 L.mask ≠ 0 ↔ Int.testBit 10 L.bit = true)) ∧
      ((10 : Int) = Int.lor LInfo LError →
        ActiveOn { name := "app.log", fd := 3 } st.Info ∧
        ActiveOn { name := "app.log", fd := 3 } st.Error ∧
        Discarding st.Debug ∧ Discarding st.Warning) :=
  ⟨rfl, Init_level_gating sysOk "app.log" true 3 10 { name := "app.log", fd := 3 } rfl⟩

/-- C3, counterexample. `Init("app.log", false, 4294967299, LDebug)` succeeds and selects
Debug; the Debug stream has the prefix `"Debug: "`, but its format flags are 3, not the
`logFlag` of the call: `log.New` keeps `int32(4294967299) = 3`. -/
theorem Init_flag_wider_than_int32 :
    Opens sysOk "app.log" { name := "app.log", fd := 3 } ∧
    Int.land 1 LDebug ≠ 0 ∧
    Init sysOk initial "app.log" false 4294967299 1 = .done afterWide ∧
    afterWide.Debug.pfx = "Debug: " ∧
    afterWide.Debug.flag = 3 ∧
    afterWide.Debug.flag ≠ 4294967299 := by
  refine ⟨rfl, by decide, by decide, by decide, by decide, by decide⟩

/-- C3, amended (prefix and flags). After a successful `Init` with format flags `logFlag`, from
any prior loggers, every stream selected by `levelFlag` has the prefix made of its level name
and `": "`, that is `"Debug: "`, `"Info: "`, `"Warning: "`, `"Error: "`, and has format flags
`int32(logFlag)`; any two selected streams have the same flags; and when `logFlag` fits in 32
bits, `-2^31 ≤ logFlag < 2^31`, those flags are `logFlag` itself. -/
theorem Init_pfx_flag (sys : OS) (st : Loggers) (fileName : String) (multi : Bool)
    (logFlag levelFlag : Int) (file : File) (hopen : Opens sys fileName file) :
    ∃ st1, Init sys st fileName multi logFlag levelFlag = .done st1 ∧
      (Int.land levelFlag LDebug ≠ 0 →
        st1.Debug.pfx = "Debug: " ∧ st1.Debug.flag = int32 logFlag) ∧
      (Int.land levelFlag LInfo ≠ 0 →
        st1.Info.pfx = "Info: " ∧ st1.Info.flag = int32 logFlag) ∧
      (Int.land levelFlag LWarning ≠ 0 →
        st1.Warning.pfx = "Warning: " ∧ st1.Warning.flag = int32 logFlag) ∧
      (Int.land levelFlag LError ≠ 0 →
        st1.Error.pfx = "Error: " ∧ st1.Error.flag = int32 logFlag) ∧
      (∀ L : Level, Int.land levelFlag L.mask ≠ 0 →
        (L.get st1).pfx = L.name ++ ": " ∧ (L.get st1).flag = int32 logFlag) ∧
      (∀ L K : Level, Int.land levelFlag L.mask ≠ 0 → Int.land levelFlag K.mask ≠ 0 →
        (L.get st1).flag = (K.get st1).flag) ∧
      (-2147483648 ≤ logFlag → logFlag < 2147483648 →
        ∀ L : Level, Int.land levelFlag L.mask ≠ 0 → (L.get st1).flag = logFlag) := by
  obtain ⟨st1, hst, hget⟩ := Init_of_opens hopen st multi logFlag levelFlag
  have key : ∀ L : Level, Int.land levelFlag L.mask ≠ 0 →
      (L.get st1).pfx = L.name ++ ": " ∧ (L.get st1).flag = int32 logFlag := by
    intro L hL
    rw [hget L]
    simp [hL, log.New]
  refine ⟨st1, hst, key Level.Debug, key Level.Info, key Level.Warning, key Level.Error, key,
    ?_, ?_⟩
  · intro L K hL hK
    rw [(key L hL).2, (key K hK).2]
  · intro hlo hhi L hL
    rw [(key L hL).2]
    exact int32_of_fits logFlag hlo hhi

/-- Witness of C3, amended: flags `Ldate|Ltime|Lshortfile`, mask `LDebug|LError`. -/
theorem Init_pfx_flag_witness :
    Opens sysOk "app.log" { name := "app.log", fd := 3 } ∧
    ∃ st1, Init sysOk initial "app.log" false 19 9 = .done st1 ∧
      (Int.land 9 LDebug ≠ 0 → st1.Debug.pfx = "Debug: " ∧ st1.Debug.flag = int32 19) ∧
      (Int.land 9 LInfo ≠ 0 → st1.Info.pfx = "Info: " ∧ st1.Info.flag = int32 19) ∧
      (Int.land 9 LWarning ≠ 0 → st1.Warning.pfx = "Warning: " ∧ st1.Warning.flag = int32 19) ∧
      (Int.land 9 LError ≠ 0 → st1.Error.pfx = "Error: " ∧ st1.Error.flag = int32 19) ∧
      (∀ L : Level, Int.land 9 L.mask ≠ 0 →
        (L.get st1).pfx = L.name ++ ": " ∧ (L.get st1).flag = int32 19) ∧
      (∀ L K : Level, Int.land 9 L.mask ≠ 0 → Int.land 9 K.mask ≠ 0 →
        (L.get st1).flag = (K.get st1).flag) ∧
      (-2147483648 ≤ (19 : Int) → (19 : Int) < 2147483648 →
        ∀ L : Level, Int.land 9 L.mask ≠ 0 → (L.get st1).flag = 19) :=
  ⟨rfl, Init_pfx_flag sysOk initial "app.log" false 19 9 { name := "app.log", fd := 3 } rfl⟩

/-- C4 (fatal open failure). From any prior loggers and for any arguments, when the open of
`fileName` fails, `Init` ends in the fatal outcome, and the loggers at that point are the prior
ones: every stream is what it was before the call. -/
theorem Init_fatal_of_open_error (sys : OS) (st : Loggers) (fileName : String) (multi : Bool)
    (logFlag levelFlag : Int) (err : String)
    (hfail : sys.OpenFile fileName (os.O_CREATE ||| os.O_WRONLY ||| os.O_APPEND) 0o666
      = .error err) :
    (∃ msg, Init sys st fileName multi logFlag levelFlag = .fatal msg st) ∧
    (∀ st1, Init sys st fileName multi logFlag levelFlag ≠ .done st1) ∧
    ∀ L : Level, L.get (Init sys st fileName multi logFlag levelFlag).state = L.get st := by
  have h := Init_of_error hfail st multi logFlag levelFlag
  refine ⟨⟨_, h⟩, ?_, ?_⟩
  · intro st1 h1
    rw [h] at h1
    cases h1
  · intro L
    rw [h]
    rfl

/-- Witness of C4: every open fails, all four streams requested. -/
theorem Init_fatal_of_open_error_witness :
    sysFail.OpenFile "/proc/app.log" (os.O_CREATE ||| os.O_WRONLY ||| os.O_APPEND) 0o666
      = .error "permission denied" ∧
    ((∃ msg, Init sysFail initial "/proc/app.log" true 3 15 = .fatal msg initial) ∧
    (∀ st1, Init sysFail initial "/proc/app.log" true 3 15 ≠ .done st1) ∧
    ∀ L : Level, L.get (Init sysFail initial "/proc/app.log" true 3 15).state = L.get initial) :=
  ⟨rfl, Init_fatal_of_open_error sysFail initial "/proc/app.log" true 3 15 "permission denied" rfl⟩

/-- C5 (default discard). In the initial loggers each of Debug, Info, Warning and Error has the
discarding writer as its only writer, and a write of any message to any of them, however the
line is rendered, leaves every file, standard output and standard error as they were. -/
theorem initial_discards :
    initial.Debug.out = Writer.single Dest.Discard ∧
    initial.Info.out = Writer.single Dest.Discard ∧
    initial.Warning.out = Writer.single Dest.Discard ∧
    initial.Error.out = Writer.single Dest.Discard ∧
    ∀ L : Level, Discarding (L.get initial) ∧ (L.get initial).out.dests = [Dest.Discard] ∧
      ∀ (render : Logger → String → String) (s : String) (o : Sinks),
        Logger.Output render (L.get initial) s o = o := by
  refine ⟨rfl, rfl, rfl, rfl, ?_⟩
  intro L
  cases L <;> exact ⟨rfl, rfl, fun _ _ _ => rfl⟩

/-- C6 (level mask bit values). `LDebug = 1`, `LInfo = 2`, `LWarning = 4`, `LError = 8`; they
are the powers of two `2^0 .. 2^3`, pairwise distinct, the bitwise AND of two different ones is
0, and the bitwise OR of all four is 15. -/
theorem level_mask_values :
    (LDebug = 1 ∧ LInfo = 2 ∧ LWarning = 4 ∧ LError = 8) ∧
    (LDebug = 2 ^ 0 ∧ LInfo = 2 ^ 1 ∧ LWarning = 2 ^ 2 ∧ LError = 2 ^ 3) ∧
    (∀ L K : Level, L ≠ K → L.mask ≠ K.mask ∧ Int.land L.mask K.mask = 0) ∧
    Int.lor (Int.lor (Int.lor LDebug LInfo) LWarning) LError = 15 := by
  refine ⟨by decide, by decide, ?_, by decide⟩
  intro L K hLK
  cases L <;> cases K <;> first | exact absurd rfl hLK | decide

/-- Two records of loggers with the same four streams are equal. -/
theorem Loggers.eq_of_get {a b : Loggers} (h : ∀ L : Level, L.get a = L.get b) : a = b := by
  cases a
  cases b
  have h1 := h Level.Debug
  have h2 := h Level.Info
  have h3 := h Level.Warning
  have h4 := h Level.Error
  simp only [Level.get] at h1 h2 h3 h4
  simp [h1, h2, h3, h4]

/-- C7 (frame of `Init`). After a successful `Init` from any prior loggers, every stream whose
mask bit is clear in `levelFlag` is the logger it was before: same writer, same prefix, same
flags. With `levelFlag = 0` all four streams are unchanged. -/
theorem Init_frame (sys : OS) (st : Loggers) (fileName : String) (multi : Bool)
    (logFlag levelFlag : Int) (file : File) (hopen : Opens sys fileName file) :
    ∃ st1, Init sys st fileName multi logFlag levelFlag = .done st1 ∧
      (∀ L : Level, Int.land levelFlag L.mask = 0 →
        (L.get st1).out = (L.get st).out ∧ (L.get st1).pfx = (L.get st).pfx ∧
        (L.get st1).flag = (L.get st).flag) ∧
      (levelFlag = 0 → st1 = st) := by
  obtain ⟨st1, hst, hget⟩ := Init_of_opens hopen st multi logFlag levelFlag
  have key : ∀ L : Level, Int.land levelFlag L.mask = 0 → L.get st1 = L.get st := by
    intro L hL
    rw [hget L]
    simp [hL]
  refine ⟨st1, hst, ?_, ?_⟩
  · intro L hL
    rw [key L hL]
    exact ⟨rfl, rfl, rfl⟩
  · intro h0
    subst h0
    apply Loggers.eq_of_get
    intro L
    apply key
    cases L <;> decide

/-- Witness of C7: Debug is active before the call, which selects Error only. -/
theorem Init_frame_witness :
    Opens sysOk "b.log" { name := "b.log", fd := 3 } ∧
    ∃ st1, Init sysOk afterA "b.log" true 0 8 = .done st1 ∧
      (∀ L : Level, Int.land 8 L.mask = 0 →
        (L.get st1).out = (L.get afterA).out ∧ (L.get st1).pfx = (L.get afterA).pfx ∧
        (L.get st1).flag = (L.get afterA).flag) ∧
      ((8 : Int) = 0 → st1 = afterA) :=
  ⟨rfl, Init_frame sysOk afterA "b.log" true 0 8 { name := "b.log", fd := 3 } rfl⟩

/-- C8 (unrecognized mask bits are ignored). From any prior loggers, under the same operating
system and with the same other arguments, `Init` with any integer `levelFlag`, negative or with
bits beyond `1|2|4|8`, has the same outcome as `Init` with `levelFlag AND 15`. -/
theorem Init_levelFlag_land_15 (sys : OS) (st : Loggers) (fileName : String) (multi : Bool)
    (logFlag levelFlag : Int) :
    Init sys st fileName multi logFlag levelFlag =
      Init sys st fileName multi logFlag (Int.land levelFlag 15) := by
  have h1 : Int.land (Int.land levelFlag 15) LDebug = Int.land levelFlag LDebug :=
    land_land_of_subset levelFlag 15 1 rfl
  have h2 : Int.land (Int.land levelFlag 15) LInfo = Int.land levelFlag LInfo :=
    land_land_of_subset levelFlag 15 2 rfl
  have h3 : Int.land (Int.land levelFlag 15) LWarning = Int.land levelFlag LWarning :=
    land_land_of_subset levelFlag 15 4 rfl
  have h4 : Int.land (Int.land levelFlag 15) LError = Int.land levelFlag LError :=
    land_land_of_subset levelFlag 15 8 rfl
  unfold Init
  rw [h1, h2, h3, h4]

/-! ## Sequences of calls -/

/-- The two ways a call of `Init` can go. -/
theorem Init_cases (sys : OS) (st : Loggers) (fileName : String) (multi : Bool)
    (logFlag levelFlag : Int) :
    (∃ msg, Init sys st fileName multi logFlag levelFlag = .fatal msg st) ∨
    (∃ file, Opens sys fileName file ∧
      ∃ st1, Init sys st fileName multi logFlag levelFlag = .done st1 ∧
        ∀ L : Level, L.get st1 =
          if Int.land levelFlag L.mask ≠ 0 then
            log.New (boundWriter multi file L) (L.name ++ ": ") logFlag
          else L.get st) := by
  cases h : sys.OpenFile fileName (os.O_CREATE ||| os.O_WRONLY ||| os.O_APPEND) 0o666 with
  | error err => exact Or.inl ⟨_, Init_of_error h st multi logFlag levelFlag⟩
  | ok file => exact Or.inr ⟨file, h, Init_of_opens h st multi logFlag levelFlag⟩

theorem boundWriter_ne_discard (multi : Bool) (file : File) (L : Level) :
    boundWriter multi file L ≠ .single .Discard := by
  cases multi <;> simp [boundWriter]

/-- A stream that is not discarding stays so through any calls. -/
theorem runCalls_not_discarding (L : Level) (cs : List Call) :
    ∀ st : Loggers, ¬ Discarding (L.get st) → ¬ Discarding (L.get (runCalls st cs).state) := by
  induction cs with
  | nil => intro st h; exact h
  | cons c cs ih =>
    intro st h
    unfold runCalls
    rcases Init_cases c.sys st c.fileName c.multi c.logFlag c.levelFlag with
      ⟨msg, hf⟩ | ⟨file, _, st1, hd, hget⟩
    · rw [hf]; exact h
    · rw [hd]
      apply ih
      rw [hget L]
      by_cases hL : Int.land c.levelFlag L.mask = 0
      · simpa [hL] using h
      · simp only [ne_eq, hL, not_false_eq_true, if_true, Discarding, log.New]
        exact boundWriter_ne_discard c.multi file L

/-- Running `cs ++ more`: the calls of `more` start from the loggers `cs` ended with, unless
`cs` ended fatally. -/
theorem runCalls_append (cs more : List Call) :
    ∀ st : Loggers, runCalls st (cs ++ more) =
      match runCalls st cs with
      | .fatal msg s => .fatal msg s
      | .done s => runCalls s more := by
  induction cs with
  | nil => intro st; rfl
  | cons c cs ih =>
    intro st
    simp only [List.cons_append, runCalls]
    cases Init c.sys st c.fileName c.multi c.logFlag c.levelFlag with
    | fatal msg s => rfl
    | done s => exact ih s

/-- From any loggers, after any calls, a stream is what it was at the start or what one of the
calls that ran and returned bound it to. -/
theorem runCalls_get (L : Level) (cs : List Call) :
    ∀ st : Loggers,
      L.get (runCalls st cs).state = L.get st ∨
      ∃ (pre : List Call) (c : Call) (post : List Call) (file : File) (s0 : Loggers),
        cs = pre ++ c :: post ∧ runCalls st pre = .done s0 ∧
        Opens c.sys c.fileName file ∧ Int.land c.levelFlag L.mask ≠ 0 ∧
        L.get (runCalls st cs).state =
          log.New (boundWriter c.multi file L) (L.name ++ ": ") c.logFlag := by
  induction cs with
  | nil => intro st; exact Or.inl rfl
  | cons c cs ih =>
    intro st
    rcases Init_cases c.sys st c.fileName c.multi c.logFlag c.levelFlag with
      ⟨msg, hf⟩ | ⟨file, hopen, st1, hd, hget⟩
    · left
      simp only [runCalls, hf, Outcome.state]
    · have hrun : runCalls st (c :: cs) = runCalls st1 cs := by
        simp only [runCalls, hd]
      rw [hrun]
      rcases ih st1 with hsame | ⟨pre, c1, post, file1, s0, hcs, hpre, hopen1, hsel, hfin⟩
      · by_cases hL : Int.land c.levelFlag L.mask = 0
        · left
          rw [hsame, hget L]
          simp [hL]
        · right
          refine ⟨[], c, cs, file, st, rfl, rfl, hopen, hL, ?_⟩
          rw [hsame, hget L]
          simp [hL]
      · right
        refine ⟨c :: pre, c1, post, file1, s0, by rw [hcs]; rfl, ?_, hopen1, hsel, hfin⟩
        simp only [runCalls, hd]
        exact hpre

/-- C9, counterexample. `Init("a.log", false, 3, LDebug)` makes Debug active on `a.log` with
flags 3; a second successful call `Init("b.log", true, 0, LDebug)` leaves Debug bound to
`b.log` and standard output with flags 0. So it is not the case that a stream that is active
after some successful calls has the same configuration after every further successful call. -/
theorem reinit_rebinds_active_stream :
    runCalls initial [callA] = .done afterA ∧
    ¬ Discarding afterA.Debug ∧
    runCalls afterA [callB] = .done afterAB ∧
    runCalls initial [callA, callB] = .done afterAB ∧
    afterAB.Debug.out ≠ afterA.Debug.out ∧
    afterAB.Debug.flag ≠ afterA.Debug.flag ∧
    ¬ (∀ (cs more : List Call) (L : Level) (s1 s2 : Loggers),
        runCalls initial cs = .done s1 → ¬ Discarding (L.get s1) →
        runCalls s1 more = .done s2 → L.get s2 = L.get s1) := by
  refine ⟨by decide, by decide, by decide, by decide, by decide, by decide, ?_⟩
  intro h
  have h1 : Level.Debug.get afterAB = Level.Debug.get afterA :=
    h [callA] [callB] Level.Debug afterA afterAB (by decide) (by decide) (by decide)
  revert h1
  decide

/-- C9, amended. From any loggers, when a sequence of `Init` calls all return and none of them
has the mask bit of a stream set in its `levelFlag`, the stream has the same writer, prefix and
flags after the sequence as before it. A further call that opens `file` and has the bit set
returns and rebinds the stream: to `file` (and its console when `multi`), its level prefix, and
that call's `logFlag`. -/
theorem runCalls_frame (st st1 : Loggers) (cs : List Call) (L : Level)
    (hrun : runCalls st cs = .done st1)
    (hclear : ∀ c ∈ cs, Int.land c.levelFlag L.mask = 0) :
    L.get st1 = L.get st ∧
    ∀ (c : Call) (file : File), Opens c.sys c.fileName file → Int.land c.levelFlag L.mask ≠ 0 →
      ∃ st2, runCalls st (cs ++ [c]) = .done st2 ∧
        L.get st2 = log.New (boundWriter c.multi file L) (L.name ++ ": ") c.logFlag := by
  constructor
  · rcases runCalls_get L cs st with hsame | ⟨pre, c, post, _, _, hcs, _, _, hsel, _⟩
    · rw [hrun] at hsame
      exact hsame
    · exact absurd (hclear c (by rw [hcs]; simp)) hsel
  · intro c file hopen hsel
    obtain ⟨st2, hd, hget⟩ := Init_of_opens hopen st1 c.multi c.logFlag c.levelFlag
    refine ⟨st2, ?_, ?_⟩
    · rw [runCalls_append, hrun]
      simp only [runCalls, hd]
    · rw [hget L]
      simp [hsel]

/-- Witness of C9, amended: Debug is active after `callA`; `callC` selects Info and Error only,
and a further `callB` rebinds Debug. -/
theorem runCalls_frame_witness :
    runCalls afterA [callC] = .done afterAC ∧
    (∀ c ∈ [callC], Int.land c.levelFlag Level.Debug.mask = 0) ∧
    (Level.Debug.get afterAC = Level.Debug.get afterA ∧
    ∀ (c : Call) (file : File), Opens c.sys c.fileName file →
      Int.land c.levelFlag Level.Debug.mask ≠ 0 →
      ∃ st2, runCalls afterA ([callC] ++ [c]) = .done st2 ∧
        Level.Debug.get st2 =
          log.New (boundWriter c.multi file Level.Debug) (Level.Debug.name ++ ": ") c.logFlag) :=
  ⟨by decide, by intro c hc; rw [List.mem_singleton.mp hc]; decide,
    runCalls_frame afterA afterAC [callC] Level.Debug (by decide)
      (by intro c hc; rw [List.mem_singleton.mp hc]; decide)⟩

/-- C10, counterexample. After the one call `Init("f.log", false, 2147483648, LDebug|LError)`,
which succeeds, Debug is not discarding, and its format flags are `-2147483648`: they are not
the format flags of any call of the sequence. -/
theorem runCalls_flag_of_no_call :
    runCalls initial [callBig] = .done afterBig ∧
    Int.land callBig.levelFlag LDebug ≠ 0 ∧
    ¬ Discarding afterBig.Debug ∧
    afterBig.Debug.flag = -2147483648 ∧
    callBig.logFlag = 2147483648 ∧
    ∀ c ∈ [callBig], afterBig.Debug.flag ≠ c.logFlag := by
  refine ⟨by decide, by decide, by decide, by decide, by decide, ?_⟩
  intro c hc
  rw [List.mem_singleton.mp hc]
  decide

/-- C10, amended (two-state invariant). After any sequence of `Init` calls from the initial
loggers, returning or fatal, each stream is either the initial discarding logger (writer
`ioutil.Discard` only), or it is not discarding and is exactly what one call of the sequence
that ran, opened a file and had the stream's bit set bound it to: that file (plus the stream's
console when that call's `multi` is true), the level's prefix, and `int32` of that call's
`logFlag`, which is that `logFlag` when it fits in 32 bits. A stream that is not discarding
after `cs` is not discarding after `cs` followed by any further calls. -/
theorem runCalls_two_state (cs : List Call) (L : Level) :
    ((L.get (runCalls initial cs).state = L.get initial ∧
        Discarding (L.get (runCalls initial cs).state)) ∨
      (¬ Discarding (L.get (runCalls initial cs).state) ∧
        ∃ (pre : List Call) (c : Call) (post : List Call) (file : File) (s0 : Loggers),
          cs = pre ++ c :: post ∧ runCalls initial pre = .done s0 ∧
          Opens c.sys c.fileName file ∧ Int.land c.levelFlag L.mask ≠ 0 ∧
          (L.get (runCalls initial cs).state).out =
            (if c.multi then Writer.multiWriter [Dest.file file, L.console]
              else Writer.single (Dest.file file)) ∧
          (L.get (runCalls initial cs).state).pfx = L.name ++ ": " ∧
          (L.get (runCalls initial cs).state).flag = int32 c.logFlag ∧
          (-2147483648 ≤ c.logFlag ∧ c.logFlag < 2147483648 →
            (L.get (runCalls initial cs).state).flag = c.logFlag))) ∧
    ∀ more : List Call, ¬ Discarding (L.get (runCalls initial cs).state) →
      ¬ Discarding (L.get (runCalls initial (cs ++ more)).state) := by
  constructor
  · rcases runCalls_get L cs initial with hsame | ⟨pre, c, post, file, s0, hcs, hpre, ho, hsel, hfin⟩
    · left
      refine ⟨hsame, ?_⟩
      unfold Discarding
      rw [hsame]
      cases L <;> rfl
    · right
      refine ⟨?_, pre, c, post, file, s0, hcs, hpre, ho, hsel, ?_, ?_, ?_, ?_⟩
      · unfold Discarding
        rw [hfin]
        exact boundWriter_ne_discard c.multi file L
      · rw [hfin]; rfl
      · rw [hfin]; rfl
      · rw [hfin]; rfl
      · intro hfit
        rw [hfin]
        exact int32_of_fits c.logFlag hfit.1 hfit.2
  · intro more h
    rw [runCalls_append]
    cases hr : runCalls initial cs with
    | fatal msg s => rw [hr] at h; exact h
    | done s =>
      rw [hr] at h
      exact runCalls_not_discarding L more s h

end logger
